import Mathlib

/-!
Verification of the secure booking-token and slot-availability subsystem.

The development shallowly embeds the subsystem's TypeScript sources:

* BookingTokenService (token generation, SHA-256 hashing, state evaluation),
* ValidateBookingTokenUseCase (lookup by hash, attempt accounting, consumption),
* GetAvailabilityUseCase (fixed 09:00-18:00 grid of 30-minute slots),
* CreateAppointmentUseCase (slot re-check, customer find-or-create, persist),
* the Prisma repositories these use cases call
  (PrismaBookingTokenRepository, PrismaAppointmentRepository).

Modelling choices:

* Timestamps are Int milliseconds on a linear local timeline (no DST);
  JavaScript's setHours(0,0,0,0) becomes truncation to a multiple of a day,
  and new Date(year, month, day, hour, minute) becomes
  midnight-of-that-day + hour and minute offsets.
* Machine integers are Nat with explicit % 2^32 where SHA-256 overflows.
* The storage collaborator is a pure state (lists of rows); each use case
  is a function from the state (plus the inputs and the current moment) to
  its outcome, the successor state, and the list of storage write effects
  it performed, in order.
* Node's crypto primitives are implemented concretely: SHA-256 over byte
  lists, UTF-8 encoding of strings, standard base64; randomBytes becomes an
  explicit byte-list argument.
-/

/-! ## Time model -/

def msPerDay : Int := 86400000

/-- setHours(0,0,0,0) on a local-time Date: truncate to local midnight. -/
def truncToMidnight (t : Int) : Int := t - t % msPerDay

/-! ## Token cryptography primitive: SHA-256 over byte lists -/

def M32 : Nat := 4294967296

def rotr (n x : Nat) : Nat := ((x >>> n) ||| (x <<< (32 - n))) % M32

def smallSigma0 (x : Nat) : Nat := (rotr 7 x) ^^^ (rotr 18 x) ^^^ (x >>> 3)
def smallSigma1 (x : Nat) : Nat := (rotr 17 x) ^^^ (rotr 19 x) ^^^ (x >>> 10)
def bigSigma0 (x : Nat) : Nat := (rotr 2 x) ^^^ (rotr 13 x) ^^^ (rotr 22 x)
def bigSigma1 (x : Nat) : Nat := (rotr 6 x) ^^^ (rotr 11 x) ^^^ (rotr 25 x)

def sha256K : List Nat :=
  [1116352408, 1899447441, 3049323471, 3921009573,
   961987163, 1508970993, 2453635748, 2870763221,
   3624381080, 310598401, 607225278, 1426881987,
   1925078388, 2162078206, 2614888103, 3248222580,
   3835390401, 4022224774, 264347078, 604807628,
   770255983, 1249150122, 1555081692, 1996064986,
   2554220882, 2821834349, 2952996808, 3210313671,
   3336571891, 3584528711, 113926993, 338241895,
   666307205, 773529912, 1294757372, 1396182291,
   1695183700, 1986661051, 2177026350, 2456956037,
   2730485921, 2820302411, 3259730800, 3345764771,
   3516065817, 3600352804, 4094571909, 275423344,
   430227734, 506948616, 659060556, 883997877,
   958139571, 1322822218, 1537002063, 1747873779,
   1955562222, 2024104815, 2227730452, 2361852424,
   2428436474, 2756734187, 3204031479, 3329325298]

structure Sha256State where
  h0 : Nat
  h1 : Nat
  h2 : Nat
  h3 : Nat
  h4 : Nat
  h5 : Nat
  h6 : Nat
  h7 : Nat
deriving DecidableEq, Repr

def sha256Init : Sha256State :=
  ⟨1779033703, 3144134277, 1013904242, 2773480762,
   1359893119, 2600822924, 528734635, 1541459225⟩

def wordOf (bytes : List Nat) (i : Nat) : Nat :=
  bytes.getD (4 * i) 0 * 16777216 + bytes.getD (4 * i + 1) 0 * 65536 +
    bytes.getD (4 * i + 2) 0 * 256 + bytes.getD (4 * i + 3) 0

def extendSchedule (w0 : Array Nat) : Array Nat :=
  (List.range 48).foldl
    (fun w j =>
      let i := j + 16
      w.push ((w.getD (i - 16) 0 + smallSigma0 (w.getD (i - 15) 0) +
               w.getD (i - 7) 0 + smallSigma1 (w.getD (i - 2) 0)) % M32))
    w0

structure Working where
  a : Nat
  b : Nat
  c : Nat
  d : Nat
  e : Nat
  f : Nat
  g : Nat
  h : Nat

def bnot32 (x : Nat) : Nat := x ^^^ (M32 - 1)

def compressChunk (st : Sha256State) (chunk : List Nat) : Sha256State :=
  let w := extendSchedule (Array.mk ((List.range 16).map (wordOf chunk)))
  let fin := (List.range 64).foldl
    (fun (v : Working) i =>
      let s1 := bigSigma1 v.e
      let ch := (v.e &&& v.f) ^^^ (bnot32 v.e &&& v.g)
      let temp1 := (v.h + s1 + ch + sha256K.getD i 0 + w.getD i 0) % M32
      let s0 := bigSigma0 v.a
      let maj := (v.a &&& v.b) ^^^ (v.a &&& v.c) ^^^ (v.b &&& v.c)
      let temp2 := (s0 + maj) % M32
      ⟨(temp1 + temp2) % M32, v.a, v.b, v.c, (v.d + temp1) % M32, v.e, v.f, v.g⟩)
    ⟨st.h0, st.h1, st.h2, st.h3, st.h4, st.h5, st.h6, st.h7⟩
  ⟨(st.h0 + fin.a) % M32, (st.h1 + fin.b) % M32, (st.h2 + fin.c) % M32, (st.h3 + fin.d) % M32,
   (st.h4 + fin.e) % M32, (st.h5 + fin.f) % M32, (st.h6 + fin.g) % M32, (st.h7 + fin.h) % M32⟩

def sha256Pad (msg : List Nat) : List Nat :=
  let len := msg.length
  let padZeros := (64 + 56 - (len + 1) % 64) % 64
  let bitLen := len * 8
  msg ++ [128] ++ List.replicate padZeros 0 ++
    (List.range 8).map (fun i => (bitLen >>> (56 - 8 * i)) % 256)

def toChunksGo : List Nat → List Nat → List (List Nat)
  | [], acc => if acc.isEmpty then [] else [acc]
  | b :: rest, acc =>
      let acc2 := acc ++ [b]
      if acc2.length = 64 then acc2 :: toChunksGo rest [] else toChunksGo rest acc2

def toChunks (l : List Nat) : List (List Nat) := toChunksGo l []

def bytesOfWord (x : Nat) : List Nat :=
  [x / 16777216 % 256, x / 65536 % 256, x / 256 % 256, x % 256]

def sha256Bytes (msg : List Nat) : List Nat :=
  let final := (toChunks (sha256Pad msg)).foldl compressChunk sha256Init
  bytesOfWord final.h0 ++ bytesOfWord final.h1 ++ bytesOfWord final.h2 ++ bytesOfWord final.h3 ++
    bytesOfWord final.h4 ++ bytesOfWord final.h5 ++ bytesOfWord final.h6 ++ bytesOfWord final.h7

def hexDigitChars : List Char := "0123456789abcdef".data

def hexDigit (n : Nat) : Char := hexDigitChars.getD n '0'

def hexOfBytes (bs : List Nat) : String :=
  String.mk ((bs.map (fun b => [hexDigit (b / 16), hexDigit (b % 16)])).flatten)

def utf8EncodeChar (c : Char) : List Nat :=
  let n := c.toNat
  if n < 128 then [n]
  else if n < 2048 then [192 + n / 64, 128 + n % 64]
  else if n < 65536 then [224 + n / 4096, 128 + n / 64 % 64, 128 + n % 64]
  else [240 + n / 262144, 128 + n / 4096 % 64, 128 + n / 64 % 64, 128 + n % 64]

def utf8Bytes (s : String) : List Nat := (s.data.map utf8EncodeChar).flatten

/-- createHash("sha256").update(plainToken).digest("hex") from BookingTokenService. -/
def hashToken (plainToken : String) : String := hexOfBytes (sha256Bytes (utf8Bytes plainToken))

/-! ## Token cryptography primitive: base64 and generateToken -/

def base64Alphabet : List Char :=
  "ABCDEFGHIJKLMNOPQRSTUVWXYZabcdefghijklmnopqrstuvwxyz0123456789+/".data

def b64char (n : Nat) : Char := base64Alphabet.getD n 'A'

/-- Node's Buffer.toString("base64"): standard alphabet, with '=' padding. -/
def encodeBase64 : List Nat → List Char
  | [] => []
  | [b0] => [b64char (b0 / 4), b64char (b0 % 4 * 16), '=', '=']
  | [b0, b1] => [b64char (b0 / 4), b64char (b0 % 4 * 16 + b1 / 16), b64char (b1 % 16 * 4), '=']
  | b0 :: b1 :: b2 :: rest =>
      b64char (b0 / 4) :: b64char (b0 % 4 * 16 + b1 / 16) ::
        b64char (b1 % 16 * 4 + b2 / 64) :: b64char (b2 % 64) :: encodeBase64 rest

def repPlus (c : Char) : Char := if c = '+' then '-' else c
def repSlash (c : Char) : Char := if c = '/' then '_' else c

structure GenerateTokenResult where
  plainToken : String
  tokenHash : String
deriving DecidableEq, Repr

def TOKEN_BYTES : Nat := 32
def TOKEN_EXPIRY_MINUTES : Int := 15
def MAX_VALIDATION_ATTEMPTS : Nat := 5
def RATE_LIMIT_WINDOW_MS : Int := 60 * 1000

/-- BookingTokenService.generateToken, with the randomBytes(32) draw passed
    in as an explicit byte list. The plaintext is the base64 encoding with
    each '+' replaced by '-', each '/' by '_', and every '=' removed. -/
def generateToken (randomBytes : List Nat) : GenerateTokenResult :=
  let plainToken :=
    String.mk ((((encodeBase64 randomBytes).map repPlus).map repSlash).filter (fun c => c != '='))
  { plainToken := plainToken, tokenHash := hashToken plainToken }

/-- BookingTokenService.calculateExpiry: now plus the given minutes. -/
def calculateExpiry (now : Int) (minutes : Int := TOKEN_EXPIRY_MINUTES) : Int :=
  now + minutes * 60000

/-! ## Token state evaluator -/

structure BookingTokenData where
  id : String
  tokenHash : String
  barbershopId : String
  barberId : Option String
  customerPhone : String
  expiresAt : Int
  usedAt : Option Int
  singleUse : Bool
  validationAttempts : Nat
  lastAttemptAt : Option Int
deriving DecidableEq, Repr

inductive TokenReason
  | expired
  | already_used
  | not_found
  | rate_limited
deriving DecidableEq, Repr

inductive TokenValidationResult
  | valid
  | invalid (reason : TokenReason)
deriving DecidableEq, Repr

/-- The rate-limit test inside validateTokenState: attempts at the cap and the
    last attempt recent. A null lastAttemptAt gives timeSinceLastAttempt =
    Infinity in the source, and Infinity < RATE_LIMIT_WINDOW_MS is false. -/
def rateLimitHit (t : BookingTokenData) (now : Int) : Bool :=
  decide (t.validationAttempts ≥ MAX_VALIDATION_ATTEMPTS) &&
    (match t.lastAttemptAt with
     | some last => decide (now - last < RATE_LIMIT_WINDOW_MS)
     | none => false)

/-- BookingTokenService.validateTokenState; now stands for both Date.now()
    and the new Date() drawn during the check. -/
def validateTokenState (tokenData : Option BookingTokenData) (now : Int) :
    TokenValidationResult :=
  match tokenData with
  | none => .invalid .not_found
  | some t =>
      if rateLimitHit t now then .invalid .rate_limited
      else if decide (now > t.expiresAt) then .invalid .expired
      else if t.singleUse && t.usedAt.isSome then .invalid .already_used
      else .valid

/-! ## Booking token repository (PrismaBookingTokenRepository) -/

abbrev TokenDb := List BookingTokenData

def findByHash (db : TokenDb) (tokenHash : String) : Option BookingTokenData :=
  db.find? (fun t => t.tokenHash == tokenHash)

def markAsUsed (db : TokenDb) (id : String) (now : Int) : TokenDb :=
  db.map (fun t => if t.id == id then { t with usedAt := some now } else t)

def incrementValidationAttempts (db : TokenDb) (id : String) (now : Int) : TokenDb :=
  db.map (fun t =>
    if t.id == id then
      { t with validationAttempts := t.validationAttempts + 1, lastAttemptAt := some now }
    else t)

/-! ## Booking token validator (ValidateBookingTokenUseCase) -/

deriving instance DecidableEq for Except

inductive TokenError
  | tokenExpired
  | tokenAlreadyUsed
  | tokenNotFound
  | tokenRateLimited
deriving DecidableEq, Repr

structure BookingSession where
  barbershopId : String
  barberId : Option String
  customerPhone : String
  tokenId : String
deriving DecidableEq, Repr

inductive TokenEffect
  | incrementAttempts (id : String)
  | markUsed (id : String)
deriving DecidableEq, Repr

structure ValidateOutcome where
  result : Except TokenError BookingSession
  db : TokenDb
  effects : List TokenEffect
deriving DecidableEq, Repr

/-- The switch mapping validation.reason to the thrown error;
    not_found shares the default arm. -/
def mapReasonToError : TokenReason → TokenError
  | .expired => .tokenExpired
  | .already_used => .tokenAlreadyUsed
  | .rate_limited => .tokenRateLimited
  | .not_found => .tokenNotFound

/-- ValidateBookingTokenUseCase.execute. The state evaluator runs on the row
    as read, before the attempt increment is visible; the returned effects
    list records the storage writes in order. -/
def ValidateBookingTokenUseCase.execute (db : TokenDb) (plainToken : String) (now : Int) :
    ValidateOutcome :=
  let tokenHash := hashToken plainToken
  let tokenData := findByHash db tokenHash
  let db1 := match tokenData with
    | some t => incrementValidationAttempts db t.id now
    | none => db
  let effs1 := match tokenData with
    | some t => [TokenEffect.incrementAttempts t.id]
    | none => []
  match validateTokenState tokenData now with
  | .invalid reason => { result := .error (mapReasonToError reason), db := db1, effects := effs1 }
  | .valid =>
      match tokenData with
      | some t =>
          if t.singleUse then
            { result := .ok ⟨t.barbershopId, t.barberId, t.customerPhone, t.id⟩,
              db := markAsUsed db1 t.id now,
              effects := effs1 ++ [TokenEffect.markUsed t.id] }
          else
            { result := .ok ⟨t.barbershopId, t.barberId, t.customerPhone, t.id⟩,
              db := db1, effects := effs1 }
      -- Unreachable: a missing row evaluates to invalid not_found.
      | none => { result := .error .tokenNotFound, db := db1, effects := effs1 }

/-! ## Appointment storage (PrismaAppointmentRepository) -/

structure Appointment where
  id : String
  barberId : String
  serviceId : String
  customerId : String
  barbershopId : String
  startTime : Int
  endTime : Int
  status : String
deriving DecidableEq, Repr

structure AppointmentData where
  startTime : Int
  endTime : Int
deriving DecidableEq, Repr

structure Customer where
  id : String
  phone : String
deriving DecidableEq, Repr

structure Db where
  appointments : List Appointment
  customers : List Customer
deriving DecidableEq, Repr

/-- findAllOnDay: non-canceled appointments of the barber whose startTime lies
    between the date's local midnight and 23:59:59.999, selecting
    startTime and endTime. -/
def findAllOnDay (db : Db) (barberId : String) (date : Int) : List AppointmentData :=
  let startOfDay := truncToMidnight date
  let endOfDay := truncToMidnight date + 86399999
  (db.appointments.filter (fun a =>
      a.barberId == barberId && decide (startOfDay ≤ a.startTime) &&
        decide (a.startTime ≤ endOfDay) && a.status != "CANCELED")).map
    (fun a => { startTime := a.startTime, endTime := a.endTime })

/-- isSlotAvailable: no non-canceled appointment of the barber at exactly
    this startTime. -/
def isSlotAvailable (db : Db) (barberId : String) (startTime : Int) : Bool :=
  !(db.appointments.any (fun a =>
      a.barberId == barberId && a.startTime == startTime && a.status != "CANCELED"))

def findCustomerByPhone (db : Db) (phone : String) : Option Customer :=
  db.customers.find? (fun c => c.phone == phone)

/-! ## Availability calculator (GetAvailabilityUseCase) -/

structure AvailableSlot where
  startTime : Int
  endTime : Int
deriving DecidableEq, Repr

def BUSINESS_START_HOUR : Nat := 9
def BUSINESS_END_HOUR : Nat := 18
def SLOT_DURATION_MINUTES : Int := 30

def isDateInPast (date now : Int) : Bool :=
  decide (truncToMidnight date < truncToMidnight now)

/-- generateDaySlots: hours 9 to 17, minutes 0 and 30 (the source's inner loop
    minute = 0; minute < 60; minute += 30); each slot starts at the requested
    calendar date's midnight plus the hour and minute, and ends 30 minutes
    later. -/
def generateDaySlots (date : Int) : List AvailableSlot :=
  (List.range' BUSINESS_START_HOUR (BUSINESS_END_HOUR - BUSINESS_START_HOUR)).flatMap
    (fun (hour : Nat) =>
      [(0 : Nat), 30].map (fun (minute : Nat) =>
        let startTime := truncToMidnight date + (hour : Int) * 3600000 + (minute : Int) * 60000
        { startTime := startTime, endTime := startTime + SLOT_DURATION_MINUTES * 60000 }))

/-- GetAvailabilityUseCase.execute. The second component counts the
    findAllOnDay storage fetches the run performs (0 or 1). -/
def GetAvailabilityUseCase.execute (db : Db) (barberId : String) (date now : Int) :
    List AvailableSlot × Nat :=
  if isDateInPast date now then ([], 0)
  else
    let bookedAppointments := findAllOnDay db barberId date
    let allSlots := generateDaySlots date
    let availableSlots := allSlots.filter (fun slot =>
      if decide (slot.startTime ≤ now) then false
      else !(bookedAppointments.any (fun booked => booked.startTime == slot.startTime)))
    (availableSlots, 1)

/-! ## Appointment booking orchestrator (CreateAppointmentUseCase) -/

inductive SlotOccupiedError
  | slotOccupied
deriving DecidableEq, Repr

structure CreateAppointmentUseCaseInput where
  barberId : String
  serviceId : String
  barbershopId : String
  customerPhone : String
  startTime : Int
  durationMin : Int
deriving DecidableEq, Repr

inductive BookEffect
  | checkSlot
  | findCustomer
  | createCustomer
  | createAppointment
deriving DecidableEq, Repr

structure BookOutcome where
  result : Except SlotOccupiedError Appointment
  db : Db
  effects : List BookEffect
deriving DecidableEq, Repr

/-- CreateAppointmentUseCase.execute. The ids minted by storage for a created
    customer row and the appointment row are passed in explicitly; a created
    appointment carries the schema's default status "SCHEDULED". The effects
    list records the storage operations after the availability check, in
    order. -/
def CreateAppointmentUseCase.execute (db : Db) (input : CreateAppointmentUseCaseInput)
    (newCustomerId newAppointmentId : String) : BookOutcome :=
  if !(isSlotAvailable db input.barberId input.startTime) then
    { result := .error .slotOccupied, db := db, effects := [.checkSlot] }
  else
    match findCustomerByPhone db input.customerPhone with
    | some customer =>
        let endTime := input.startTime + input.durationMin * 60000
        let appt : Appointment :=
          { id := newAppointmentId, barberId := input.barberId, serviceId := input.serviceId,
            customerId := customer.id, barbershopId := input.barbershopId,
            startTime := input.startTime, endTime := endTime, status := "SCHEDULED" }
        { result := .ok appt,
          db := { db with appointments := db.appointments ++ [appt] },
          effects := [.checkSlot, .findCustomer, .createAppointment] }
    | none =>
        let customer : Customer := { id := newCustomerId, phone := input.customerPhone }
        let db1 : Db := { db with customers := db.customers ++ [customer] }
        let endTime := input.startTime + input.durationMin * 60000
        let appt : Appointment :=
          { id := newAppointmentId, barberId := input.barberId, serviceId := input.serviceId,
            customerId := customer.id, barbershopId := input.barbershopId,
            startTime := input.startTime, endTime := endTime, status := "SCHEDULED" }
        { result := .ok appt,
          db := { db1 with appointments := db1.appointments ++ [appt] },
          effects := [.checkSlot, .findCustomer, .createCustomer, .createAppointment] }

/-! ## Theorems -/

/-- C7: for every barberId and every date whose midnight truncation is strictly
before today's, the availability calculator returns the empty sequence and
performs no appointment-storage fetch (fetch count 0: the early return
precedes the findAllOnDay call). -/
theorem getAvailability_pastDate_empty (db : Db) (barberId : String) (date now : Int)
    (h : isDateInPast date now = true) :
    GetAvailabilityUseCase.execute db barberId date now = ([], 0) := by
  simp [GetAvailabilityUseCase.execute, h]

theorem getAvailability_pastDate_empty_witness :
    isDateInPast (-1) 0 = true ∧
      GetAvailabilityUseCase.execute { appointments := [], customers := [] } "barber-1" (-1) 0
        = ([], 0) :=
  ⟨by decide, getAvailability_pastDate_empty _ "barber-1" (-1) 0 (by decide)⟩

/-- C3 counterexample record: validationAttempts at the cap and lastAttemptAt
null, otherwise live (not expired, unused). -/
def c3Record : BookingTokenData :=
  { id := "tok-1", tokenHash := "hash-1", barbershopId := "shop-1", barberId := none,
    customerPhone := "+5511999999999", expiresAt := 1000000, usedAt := none,
    singleUse := true, validationAttempts := 5, lastAttemptAt := none }

/-- C3 is false on the code: a record with validationAttempts = 5 and
lastAttemptAt null does not evaluate to rate_limited (the source maps a null
lastAttemptAt to an infinite elapsed time, and Infinity < 60s is false);
this otherwise-live record evaluates to valid. -/
theorem validateTokenState_nullLastAttempt_cex :
    c3Record.validationAttempts ≥ 5 ∧ c3Record.lastAttemptAt = none ∧
      validateTokenState (some c3Record) 0 ≠ .invalid .rate_limited ∧
      validateTokenState (some c3Record) 0 = .valid := by decide

/-- C3 (amended): for every token record with validationAttempts >= 5 and
lastAttemptAt null, the rate-limit check does not fire (null maps to an
infinite elapsed time, never below the 60-second window), and evaluation
continues to the expiry and single-use checks exactly as if the rate-limit
window had elapsed. -/
theorem validateTokenState_nullLastAttempt (t : BookingTokenData) (now : Int)
    (hA : t.validationAttempts ≥ MAX_VALIDATION_ATTEMPTS) (hL : t.lastAttemptAt = none) :
    validateTokenState (some t) now ≠ .invalid .rate_limited ∧
    validateTokenState (some t) now =
      (if now > t.expiresAt then .invalid .expired
       else if t.singleUse && t.usedAt.isSome then .invalid .already_used
       else .valid) := by
  have hrl : rateLimitHit t now = false := by simp [rateLimitHit, hL]
  constructor
  · simp only [validateTokenState, hrl, Bool.false_eq_true, if_false]
    split
    · simp
    · split
      · simp
      · simp
  · simp only [validateTokenState, hrl, Bool.false_eq_true, if_false, decide_eq_true_eq]

theorem validateTokenState_nullLastAttempt_witness :
    c3Record.validationAttempts ≥ MAX_VALIDATION_ATTEMPTS ∧ c3Record.lastAttemptAt = none ∧
      (validateTokenState (some c3Record) 500 ≠ .invalid .rate_limited ∧
        validateTokenState (some c3Record) 500 =
          (if (500 : Int) > c3Record.expiresAt then .invalid .expired
           else if c3Record.singleUse && c3Record.usedAt.isSome then .invalid .already_used
           else .valid)) :=
  ⟨by decide, by decide,
    validateTokenState_nullLastAttempt c3Record 500 (by decide) (by decide)⟩

/-- C4: the state evaluator applies its checks in order with first match
winning. (1) A record with validationAttempts >= 5 whose lastAttemptAt is 60
seconds or more in the past passes the rate limit, so if it is also
non-expired and not (singleUse and used) it evaluates to valid. (2) With the
rate limit not firing, a record past its expiresAt that is also used and
single-use yields reason expired, not already_used. (3) With the rate limit
not firing, a non-expired used record with singleUse = false evaluates to
valid. -/
theorem validateTokenState_checkOrder (t : BookingTokenData) (now : Int) :
    (t.validationAttempts ≥ MAX_VALIDATION_ATTEMPTS →
      (∀ last, t.lastAttemptAt = some last → now - last ≥ RATE_LIMIT_WINDOW_MS) →
      ¬ now > t.expiresAt → ¬ (t.singleUse = true ∧ t.usedAt.isSome = true) →
      validateTokenState (some t) now = .valid)
    ∧ (rateLimitHit t now = false → now > t.expiresAt →
        t.singleUse = true → t.usedAt.isSome = true →
        validateTokenState (some t) now = .invalid .expired)
    ∧ (rateLimitHit t now = false → ¬ now > t.expiresAt →
        t.singleUse = false → t.usedAt.isSome = true →
        validateTokenState (some t) now = .valid) := by
  refine ⟨?_, ?_, ?_⟩
  · intro _ hlast hexp huse
    have hrl : rateLimitHit t now = false := by
      unfold rateLimitHit
      cases hl : t.lastAttemptAt with
      | none => simp
      | some last =>
          have h2 := hlast last hl
          have h3 : ¬ (now - last < RATE_LIMIT_WINDOW_MS) := by omega
          simp [h3]
    simp [validateTokenState, hrl, hexp]
    intro hs
    simp [hs] at huse
    simpa using huse
  · intro hrl hexp _ _
    simp [validateTokenState, hrl, hexp]
  · intro hrl hexp hs _
    simp [validateTokenState, hrl, hexp, hs]

/-- A concrete record exercising part (1) of the check order: five attempts,
last attempt 2 minutes ago, not expired, unused. -/
def c4Record : BookingTokenData :=
  { id := "tok-4", tokenHash := "hash-4", barbershopId := "shop-1", barberId := none,
    customerPhone := "+5511888888888", expiresAt := 1000000, usedAt := none,
    singleUse := true, validationAttempts := 5, lastAttemptAt := some 0 }

theorem validateTokenState_checkOrder_witness :
    validateTokenState (some c4Record) 120000 = .valid :=
  (validateTokenState_checkOrder c4Record 120000).1 (by decide)
    (by intro last hl; simp [c4Record] at hl; simp [hl, RATE_LIMIT_WINDOW_MS]; omega)
    (by decide) (by decide)

/-- C2: validate(plaintext) yields TokenNotFoundError iff the state
evaluator's reason on the looked-up row is not_found, TokenExpiredError iff
expired, TokenAlreadyUsedError iff already_used, TokenRateLimitedError iff
rate_limited; and when the state is valid it returns exactly the row's
barbershopId, barberId, customerPhone, and id as tokenId. -/
theorem validate_errorMapping (db : TokenDb) (plainToken : String) (now : Int) :
    ((ValidateBookingTokenUseCase.execute db plainToken now).result
        = .error .tokenNotFound ↔
      validateTokenState (findByHash db (hashToken plainToken)) now = .invalid .not_found)
    ∧ ((ValidateBookingTokenUseCase.execute db plainToken now).result
        = .error .tokenExpired ↔
      validateTokenState (findByHash db (hashToken plainToken)) now = .invalid .expired)
    ∧ ((ValidateBookingTokenUseCase.execute db plainToken now).result
        = .error .tokenAlreadyUsed ↔
      validateTokenState (findByHash db (hashToken plainToken)) now = .invalid .already_used)
    ∧ ((ValidateBookingTokenUseCase.execute db plainToken now).result
        = .error .tokenRateLimited ↔
      validateTokenState (findByHash db (hashToken plainToken)) now = .invalid .rate_limited)
    ∧ (∀ t, findByHash db (hashToken plainToken) = some t →
        validateTokenState (some t) now = .valid →
        (ValidateBookingTokenUseCase.execute db plainToken now).result
          = .ok ⟨t.barbershopId, t.barberId, t.customerPhone, t.id⟩) := by
  unfold ValidateBookingTokenUseCase.execute
  rcases hf : findByHash db (hashToken plainToken) with _ | t
  · simp [hf, validateTokenState, mapReasonToError]
  · rcases hv : validateTokenState (some t) now with _ | r
    · cases hsu : t.singleUse <;> simp [hf, hv, hsu, mapReasonToError]
    · rcases r <;> simp [hf, hv, mapReasonToError]

/-- C5: in every validate execution, the attempt increment (with
lastAttemptAt set to now) happens exactly once iff the hash lookup found a
row — including executions the state check rejects — and markAsUsed runs iff
the state is valid and the row is singleUse; the successor storage state is
exactly the composition of those writes, so no other mutation occurs. -/
theorem validate_effects (db : TokenDb) (plainToken : String) (now : Int) :
    (findByHash db (hashToken plainToken) = none →
      ValidateBookingTokenUseCase.execute db plainToken now =
        { result := .error .tokenNotFound, db := db, effects := [] })
    ∧ (∀ t, findByHash db (hashToken plainToken) = some t →
        (ValidateBookingTokenUseCase.execute db plainToken now).effects =
            TokenEffect.incrementAttempts t.id ::
              (if validateTokenState (some t) now = .valid ∧ t.singleUse = true
               then [TokenEffect.markUsed t.id] else [])
          ∧ (ValidateBookingTokenUseCase.execute db plainToken now).db =
              (if validateTokenState (some t) now = .valid ∧ t.singleUse = true
               then markAsUsed (incrementValidationAttempts db t.id now) t.id now
               else incrementValidationAttempts db t.id now)) := by
  unfold ValidateBookingTokenUseCase.execute
  constructor
  · intro hf
    simp [hf, validateTokenState, mapReasonToError]
  · intro t hf
    rcases hv : validateTokenState (some t) now with _ | r
    · cases hsu : t.singleUse <;> simp [hf, hv, hsu]
    · cases hsu : t.singleUse <;> simp [hf, hv, hsu]

/-- C10: whenever book fails with SlotOccupied, storage is left entirely
unchanged and the only storage operation performed was the availability
check: no customer lookup or creation and no appointment write. -/
theorem createAppointment_occupied_frame (db : Db) (input : CreateAppointmentUseCaseInput)
    (newCustomerId newAppointmentId : String)
    (h : (CreateAppointmentUseCase.execute db input newCustomerId newAppointmentId).result
        = .error .slotOccupied) :
    (CreateAppointmentUseCase.execute db input newCustomerId newAppointmentId).db = db ∧
    (CreateAppointmentUseCase.execute db input newCustomerId newAppointmentId).effects
      = [.checkSlot] := by
  by_cases hav : isSlotAvailable db input.barberId input.startTime
  · exfalso
    unfold CreateAppointmentUseCase.execute at h
    rcases hfc : findCustomerByPhone db input.customerPhone with _ | c <;>
      simp [hav, hfc] at h
  · unfold CreateAppointmentUseCase.execute
    simp [Bool.not_eq_true] at hav
    simp [hav]

/-- A database whose single appointment occupies the requested slot. -/
def c10Db : Db :=
  { appointments :=
      [{ id := "appt-1", barberId := "barber-1", serviceId := "svc-1", customerId := "cust-1",
         barbershopId := "shop-1", startTime := 32400000, endTime := 34200000,
         status := "SCHEDULED" }],
    customers := [] }

def c10Input : CreateAppointmentUseCaseInput :=
  { barberId := "barber-1", serviceId := "svc-1", barbershopId := "shop-1",
    customerPhone := "+5511999999999", startTime := 32400000, durationMin := 30 }

theorem createAppointment_occupied_frame_witness :
    (CreateAppointmentUseCase.execute c10Db c10Input "cust-new" "appt-new").result
        = .error .slotOccupied ∧
      ((CreateAppointmentUseCase.execute c10Db c10Input "cust-new" "appt-new").db = c10Db ∧
        (CreateAppointmentUseCase.execute c10Db c10Input "cust-new" "appt-new").effects
          = [.checkSlot]) :=
  ⟨by decide, createAppointment_occupied_frame c10Db c10Input "cust-new" "appt-new" (by decide)⟩


/-- When the availability check passes, book succeeds and the outcome has this
exact shape: the persisted appointment keeps the requested barber and
startTime, gets endTime = startTime + durationMin minutes and the default
status, is appended to storage, and the customer row is reused when one
matches the phone and created otherwise. -/
theorem createAppointment_success_shape (db : Db) (input : CreateAppointmentUseCaseInput)
    (newCustomerId newAppointmentId : String)
    (hav : isSlotAvailable db input.barberId input.startTime = true) :
    ∃ appt,
      (CreateAppointmentUseCase.execute db input newCustomerId newAppointmentId).result
          = .ok appt ∧
        appt.barberId = input.barberId ∧
        appt.startTime = input.startTime ∧
        appt.endTime = input.startTime + input.durationMin * 60000 ∧
        appt.status = "SCHEDULED" ∧
        (CreateAppointmentUseCase.execute db input newCustomerId newAppointmentId).db.appointments
          = db.appointments ++ [appt] ∧
        (∀ c, findCustomerByPhone db input.customerPhone = some c →
          appt.customerId = c.id ∧
            (CreateAppointmentUseCase.execute db input newCustomerId
                newAppointmentId).db.customers = db.customers) ∧
        (findCustomerByPhone db input.customerPhone = none →
          appt.customerId = newCustomerId ∧
            (CreateAppointmentUseCase.execute db input newCustomerId
                newAppointmentId).db.customers
              = db.customers ++ [{ id := newCustomerId, phone := input.customerPhone }]) := by
  unfold CreateAppointmentUseCase.execute
  rcases hfc : findCustomerByPhone db input.customerPhone with _ | c <;> simp [hav, hfc]

/-- C6: book fails with SlotOccupied iff storage holds a non-canceled
appointment for the same barber at exactly that startTime; otherwise it
succeeds, reusing the customer row found for the phone or creating one, and
persists an appointment with the given startTime and endTime = startTime +
durationMin minutes. A second sequential book call for the identical
(barberId, startTime) after a success fails with SlotOccupied. -/
theorem createAppointment_spec (db : Db) (input : CreateAppointmentUseCaseInput)
    (newCustomerId newAppointmentId : String) :
    ((CreateAppointmentUseCase.execute db input newCustomerId newAppointmentId).result
        = .error .slotOccupied ↔
      ∃ a ∈ db.appointments,
        a.barberId = input.barberId ∧ a.startTime = input.startTime ∧ a.status ≠ "CANCELED")
    ∧ (isSlotAvailable db input.barberId input.startTime = true →
        ∃ appt,
          (CreateAppointmentUseCase.execute db input newCustomerId newAppointmentId).result
              = .ok appt ∧
            appt.barberId = input.barberId ∧
            appt.startTime = input.startTime ∧
            appt.endTime = input.startTime + input.durationMin * 60000 ∧
            appt.status = "SCHEDULED" ∧
            (CreateAppointmentUseCase.execute db input newCustomerId
                newAppointmentId).db.appointments
              = db.appointments ++ [appt] ∧
            (∀ c, findCustomerByPhone db input.customerPhone = some c →
              appt.customerId = c.id ∧
                (CreateAppointmentUseCase.execute db input newCustomerId
                    newAppointmentId).db.customers = db.customers) ∧
            (findCustomerByPhone db input.customerPhone = none →
              appt.customerId = newCustomerId ∧
                (CreateAppointmentUseCase.execute db input newCustomerId
                    newAppointmentId).db.customers
                  = db.customers ++ [{ id := newCustomerId, phone := input.customerPhone }]))
    ∧ (∀ (input2 : CreateAppointmentUseCaseInput) (cid2 aid2 : String),
        input2.barberId = input.barberId → input2.startTime = input.startTime →
        isSlotAvailable db input.barberId input.startTime = true →
        (CreateAppointmentUseCase.execute
            (CreateAppointmentUseCase.execute db input newCustomerId newAppointmentId).db
            input2 cid2 aid2).result
          = .error .slotOccupied) := by
  refine ⟨?_, createAppointment_success_shape db input newCustomerId newAppointmentId, ?_⟩
  · by_cases hav : isSlotAvailable db input.barberId input.startTime
    · obtain ⟨appt, hres, -⟩ :=
        createAppointment_success_shape db input newCustomerId newAppointmentId hav
      rw [hres]
      constructor
      · intro hcon
        simp at hcon
      · intro hcon
        exfalso
        obtain ⟨a, ha, h1, h2, h3⟩ := hcon
        have : db.appointments.any (fun a =>
            a.barberId == input.barberId && a.startTime == input.startTime &&
              a.status != "CANCELED") = true := by
          rw [List.any_eq_true]
          exact ⟨a, ha, by simp [h1, h2, h3]⟩
        simp [isSlotAvailable, this] at hav
    · have hany : db.appointments.any (fun a =>
          a.barberId == input.barberId && a.startTime == input.startTime &&
            a.status != "CANCELED") = true := by
        cases h : db.appointments.any (fun a =>
            a.barberId == input.barberId && a.startTime == input.startTime &&
              a.status != "CANCELED") with
        | true => rfl
        | false => exact absurd (by simp [isSlotAvailable, h]) hav
      have hav' : isSlotAvailable db input.barberId input.startTime = false := by
        simp [isSlotAvailable, hany]
      unfold CreateAppointmentUseCase.execute
      simp [hav']
      rw [List.any_eq_true] at hany
      obtain ⟨a, ha, hp⟩ := hany
      simp only [Bool.and_eq_true, beq_iff_eq, bne_iff_ne, ne_eq] at hp
      exact ⟨a, ha, hp.1.1, hp.1.2, hp.2⟩
  · intro input2 cid2 aid2 hb2 hs2 hav
    obtain ⟨appt, -, hb, hs, -, hst, happ, -, -⟩ :=
      createAppointment_success_shape db input newCustomerId newAppointmentId hav
    have hocc : isSlotAvailable
        (CreateAppointmentUseCase.execute db input newCustomerId newAppointmentId).db
        input2.barberId input2.startTime = false := by
      simp only [isSlotAvailable, happ]
      simp only [Bool.not_eq_false', List.any_eq_true]
      exact ⟨appt, by simp, by simp [hb, hs, hst, hb2, hs2]⟩
    generalize (CreateAppointmentUseCase.execute db input newCustomerId newAppointmentId).db
      = d2 at hocc ⊢
    unfold CreateAppointmentUseCase.execute
    simp [hocc]

/-- The fixed 18-slot grid named by the specification: startTimes 09:00,
09:30, ..., 17:30 on the requested calendar date, each slot ending 30
minutes after it starts. -/
def fullDayGrid (date : Int) : List AvailableSlot :=
  (List.range 18).map (fun (k : Nat) =>
    { startTime := truncToMidnight date + 9 * 3600000 + (k : Int) * 1800000,
      endTime := truncToMidnight date + 9 * 3600000 + (k : Int) * 1800000 + 1800000 })

theorem generateDaySlots_eq_grid (date : Int) : generateDaySlots date = fullDayGrid date := by
  have h1 : List.range' 9 9 = [9, 10, 11, 12, 13, 14, 15, 16, 17] := by decide
  have h2 : List.range 18 = [0, 1, 2, 3, 4, 5, 6, 7, 8, 9, 10, 11, 12, 13, 14, 15, 16, 17] := by
    decide
  simp only [generateDaySlots, fullDayGrid, BUSINESS_START_HOUR, BUSINESS_END_HOUR,
    SLOT_DURATION_MINUTES, h1, h2]
  norm_num [List.flatMap_cons, List.flatMap_nil]
  generalize truncToMidnight date = m
  omega

theorem fullDayGrid_pairwise (date : Int) :
    (fullDayGrid date).Pairwise (fun s t => s.startTime < t.startTime) := by
  rw [List.pairwise_iff_getElem]
  intro i j hi hj hij
  simp only [fullDayGrid, List.length_map, List.length_range] at hi hj
  simp only [fullDayGrid, List.getElem_map, List.getElem_range]
  generalize truncToMidnight date = m
  omega

/-- C1: for a requested date not strictly before today, the availability
calculator returns exactly the slots of the fixed 18-slot grid for that
calendar date whose startTime is strictly after the current moment and does
not equal the startTime of any non-canceled booked appointment fetched for
that barber and date; the result is in strictly ascending startTime order. -/
theorem getAvailability_spec (db : Db) (barberId : String) (date now : Int)
    (h : isDateInPast date now = false) :
    (GetAvailabilityUseCase.execute db barberId date now).1 =
        (fullDayGrid date).filter (fun slot =>
          decide (now < slot.startTime) &&
            !((findAllOnDay db barberId date).any
                (fun booked => booked.startTime == slot.startTime)))
      ∧ (GetAvailabilityUseCase.execute db barberId date now).1.Pairwise
          (fun s t => s.startTime < t.startTime) := by
  have hfil : (GetAvailabilityUseCase.execute db barberId date now).1 =
      (fullDayGrid date).filter (fun slot =>
        decide (now < slot.startTime) &&
          !((findAllOnDay db barberId date).any
              (fun booked => booked.startTime == slot.startTime))) := by
    simp only [GetAvailabilityUseCase.execute, h, Bool.false_eq_true, if_false,
      generateDaySlots_eq_grid]
    refine List.filter_congr ?_
    intro slot _
    by_cases hle : slot.startTime ≤ now
    · have : ¬ now < slot.startTime := by omega
      simp [hle, this]
    · have : now < slot.startTime := by omega
      simp [hle, this]
  refine ⟨hfil, ?_⟩
  rw [hfil]
  exact List.Pairwise.sublist (List.filter_sublist _) (fullDayGrid_pairwise date)

theorem getAvailability_spec_witness :
    isDateInPast 0 (-1) = false ∧
      ((GetAvailabilityUseCase.execute { appointments := [], customers := [] }
            "barber-1" 0 (-1)).1 =
          (fullDayGrid 0).filter (fun slot =>
            decide ((-1 : Int) < slot.startTime) &&
              !((findAllOnDay { appointments := [], customers := [] } "barber-1" 0).any
                  (fun booked => booked.startTime == slot.startTime)))
        ∧ (GetAvailabilityUseCase.execute { appointments := [], customers := [] }
              "barber-1" 0 (-1)).1.Pairwise (fun s t => s.startTime < t.startTime)) :=
  ⟨by decide,
    getAvailability_spec { appointments := [], customers := [] } "barber-1" 0 (-1) (by decide)⟩

/-- find? is unchanged by precomposition with a function the predicate
cannot observe. -/
theorem find?_comp_of_pred_eq {α : Type} (p : α → Bool) (f : α → α)
    (hpf : ∀ t, p (f t) = p t) : ∀ (l : List α), l.find? (p ∘ f) = l.find? p
  | [] => rfl
  | a :: l => by
      simp only [List.find?_cons, Function.comp_apply, hpf]
      cases p a
      · exact find?_comp_of_pred_eq p f hpf l
      · rfl

/-- A lookup by hash after the attempt increment finds the same row with the
increment applied: the update never changes tokenHash. -/
theorem findByHash_incrementValidationAttempts (db : TokenDb) (hsh id : String) (now : Int) :
    findByHash (incrementValidationAttempts db id now) hsh =
      (findByHash db hsh).map (fun t =>
        if t.id == id then
          { t with validationAttempts := t.validationAttempts + 1, lastAttemptAt := some now }
        else t) := by
  unfold findByHash incrementValidationAttempts
  rw [List.find?_map, find?_comp_of_pred_eq]
  intro t
  by_cases h : t.id == id <;> simp [h]

/-- A lookup by hash after markAsUsed finds the same row with usedAt set:
the update never changes tokenHash. -/
theorem findByHash_markAsUsed (db : TokenDb) (hsh id : String) (now : Int) :
    findByHash (markAsUsed db id now) hsh =
      (findByHash db hsh).map (fun t =>
        if t.id == id then { t with usedAt := some now } else t) := by
  unfold findByHash markAsUsed
  rw [List.find?_map, find?_comp_of_pred_eq]
  intro t
  by_cases h : t.id == id <;> simp [h]

/-- C9: validate evaluates the token record as read before the attempt
increment. A row stored with validationAttempts = 4 (its fifth presentation)
passes the rate-limit check — the evaluator sees 4 — and, being otherwise
live, validates successfully; the stored counter reaches 5 in the successor
state, so only the next lookup (here within the 60-second window) is
rejected with TokenRateLimitedError. -/
theorem validate_preIncrementRead (db : TokenDb) (plainToken : String) (now now2 : Int)
    (t : BookingTokenData)
    (hf : findByHash db (hashToken plainToken) = some t)
    (hatt : t.validationAttempts = 4)
    (hexp : ¬ now > t.expiresAt)
    (huse : ¬ (t.singleUse = true ∧ t.usedAt.isSome = true))
    (hnext : now2 - now < RATE_LIMIT_WINDOW_MS) :
    (ValidateBookingTokenUseCase.execute db plainToken now).result =
        .ok ⟨t.barbershopId, t.barberId, t.customerPhone, t.id⟩
      ∧ (∃ t2, findByHash (ValidateBookingTokenUseCase.execute db plainToken now).db
            (hashToken plainToken) = some t2 ∧
            t2.validationAttempts = 5 ∧ t2.lastAttemptAt = some now)
      ∧ (ValidateBookingTokenUseCase.execute
            (ValidateBookingTokenUseCase.execute db plainToken now).db plainToken now2).result
          = .error .tokenRateLimited := by
  have hrl : rateLimitHit t now = false := by
    simp [rateLimitHit, hatt, MAX_VALIDATION_ATTEMPTS]
  have hv : validateTokenState (some t) now = .valid := by
    cases hsu : t.singleUse with
    | false => simp [validateTokenState, hrl, hexp, hsu]
    | true =>
        cases hus : t.usedAt.isSome with
        | false => simp [validateTokenState, hrl, hexp, hsu, hus]
        | true => exact absurd ⟨hsu, hus⟩ huse
  have hexe : ValidateBookingTokenUseCase.execute db plainToken now =
      { result := .ok ⟨t.barbershopId, t.barberId, t.customerPhone, t.id⟩,
        db := if t.singleUse then
                markAsUsed (incrementValidationAttempts db t.id now) t.id now
              else incrementValidationAttempts db t.id now,
        effects := TokenEffect.incrementAttempts t.id ::
          (if t.singleUse then [TokenEffect.markUsed t.id] else []) } := by
    unfold ValidateBookingTokenUseCase.execute
    cases hsu : t.singleUse <;> simp [hf, hv, hsu]
  rw [hexe]
  refine ⟨rfl, ?_, ?_⟩
  · by_cases hsu : t.singleUse = true
    · rw [if_pos hsu]
      rw [findByHash_markAsUsed, findByHash_incrementValidationAttempts, hf]
      simp [hatt]
    · rw [if_neg hsu]
      rw [findByHash_incrementValidationAttempts, hf]
      simp [hatt]
  · by_cases hsu : t.singleUse = true
    · rw [if_pos hsu]
      have hfind2 : findByHash
          (markAsUsed (incrementValidationAttempts db t.id now) t.id now)
          (hashToken plainToken) =
            some { t with
                    validationAttempts := t.validationAttempts + 1,
                    lastAttemptAt := some now,
                    usedAt := some now } := by
        rw [findByHash_markAsUsed, findByHash_incrementValidationAttempts, hf]
        simp
      have hrl2 : rateLimitHit
          { t with
              validationAttempts := t.validationAttempts + 1,
              lastAttemptAt := some now,
              usedAt := some now } now2 = true := by
        simp [rateLimitHit, hatt, MAX_VALIDATION_ATTEMPTS, hnext]
      unfold ValidateBookingTokenUseCase.execute
      simp [hfind2, validateTokenState, hrl2, mapReasonToError]
    · rw [if_neg hsu]
      have hfind2 : findByHash (incrementValidationAttempts db t.id now)
          (hashToken plainToken) =
            some { t with
                    validationAttempts := t.validationAttempts + 1,
                    lastAttemptAt := some now } := by
        rw [findByHash_incrementValidationAttempts, hf]
        simp
      have hrl2 : rateLimitHit
          { t with
              validationAttempts := t.validationAttempts + 1,
              lastAttemptAt := some now } now2 = true := by
        simp [rateLimitHit, hatt, MAX_VALIDATION_ATTEMPTS, hnext]
      unfold ValidateBookingTokenUseCase.execute
      simp [hfind2, validateTokenState, hrl2, mapReasonToError]

/-- A stored row on its fifth presentation: validationAttempts = 4, not
expired at time 0, unused, keyed by the hash of the plaintext
"session-token". -/
def c9Record : BookingTokenData :=
  { id := "tok-9", tokenHash := hashToken "session-token", barbershopId := "shop-1",
    barberId := none, customerPhone := "+5511777777777", expiresAt := 900000, usedAt := none,
    singleUse := true, validationAttempts := 4, lastAttemptAt := none }

set_option maxRecDepth 100000 in
theorem validate_preIncrementRead_witness :
    (findByHash [c9Record] (hashToken "session-token") = some c9Record ∧
        c9Record.validationAttempts = 4 ∧
        ¬ (0 : Int) > c9Record.expiresAt ∧
        ¬ (c9Record.singleUse = true ∧ c9Record.usedAt.isSome = true) ∧
        (1000 : Int) - 0 < RATE_LIMIT_WINDOW_MS) ∧
      ((ValidateBookingTokenUseCase.execute [c9Record] "session-token" 0).result =
          .ok ⟨c9Record.barbershopId, c9Record.barberId, c9Record.customerPhone, c9Record.id⟩
        ∧ (∃ t2, findByHash (ValidateBookingTokenUseCase.execute [c9Record] "session-token" 0).db
              (hashToken "session-token") = some t2 ∧
              t2.validationAttempts = 5 ∧ t2.lastAttemptAt = some 0)
        ∧ (ValidateBookingTokenUseCase.execute
              (ValidateBookingTokenUseCase.execute [c9Record] "session-token" 0).db
              "session-token" 1000).result
            = .error .tokenRateLimited) :=
  ⟨⟨by rfl, by decide, by decide, by decide, by decide⟩,
    validate_preIncrementRead [c9Record] "session-token" 0 1000 c9Record (by rfl)
      (by decide) (by decide) (by decide) (by decide)⟩

/-- Every base64 alphabet character differs from the padding character. -/
theorem b64char_ne_eq (n : Nat) : b64char n ≠ '=' := by
  unfold b64char
  rcases Nat.lt_or_ge n 64 with h | h
  · exact (by decide : ∀ m, m < 64 → base64Alphabet.getD m 'A' ≠ '=') n h
  · rw [List.getD_eq_default]
    · decide
    · have hlen : base64Alphabet.length = 64 := by decide
      omega

theorem encodeBase64_length : ∀ l : List Nat,
    (encodeBase64 l).length = 4 * ((l.length + 2) / 3)
  | [] => by simp [encodeBase64]
  | [b0] => by simp [encodeBase64]
  | [b0, b1] => by simp [encodeBase64]
  | b0 :: b1 :: b2 :: rest => by
      simp only [encodeBase64, List.length_cons, encodeBase64_length rest]
      omega

theorem encodeBase64_count : ∀ l : List Nat,
    (encodeBase64 l).count '=' = (3 - l.length % 3) % 3
  | [] => by simp [encodeBase64]
  | [b0] => by
      have hb : ∀ n, (b64char n == '=') = false := fun n => by
        simp [b64char_ne_eq n]
      simp [encodeBase64, List.count_cons, hb]
  | [b0, b1] => by
      have hb : ∀ n, (b64char n == '=') = false := fun n => by
        simp [b64char_ne_eq n]
      simp [encodeBase64, List.count_cons, hb]
  | b0 :: b1 :: b2 :: rest => by
      have hb : ∀ n, (b64char n == '=') = false := fun n => by
        simp [b64char_ne_eq n]
      simp [encodeBase64, List.count_cons, hb, encodeBase64_count rest]
      omega

/-- The two character replacements of generateToken never produce '+' or
'/'. -/
theorem repSlash_repPlus_ne (c : Char) :
    repSlash (repPlus c) ≠ '+' ∧ repSlash (repPlus c) ≠ '/' := by
  unfold repPlus repSlash
  by_cases h1 : c = '+' <;> by_cases h2 : c = '/' <;> simp [h1, h2]

/-- The replacements also never manufacture or destroy an '='. -/
theorem count_eq_map_rep (l : List Char) :
    ((l.map repPlus).map repSlash).count '=' = l.count '=' := by
  rw [List.count_eq_countP, List.count_eq_countP, List.countP_map, List.countP_map]
  refine List.countP_congr ?_
  intro a _
  by_cases h1 : a = '+' <;> by_cases h2 : a = '/' <;>
    simp [Function.comp, repPlus, repSlash, h1, h2]

theorem filter_ne_length : ∀ l : List Char,
    (l.filter (fun c => c != '=')).length = l.length - l.count '='
  | [] => rfl
  | c :: t => by
      have hle := List.count_le_length '=' t
      have hrec := filter_ne_length t
      by_cases h : c = '='
      · subst h
        simp [List.filter_cons, List.count_cons, hrec]
      · simp [List.filter_cons, List.count_cons, h, hrec]
        omega

theorem hexDigit_mem (n : Nat) : hexDigit n ∈ hexDigitChars := by
  unfold hexDigit
  rcases Nat.lt_or_ge n 16 with h | h
  · exact (by decide : ∀ m, m < 16 → hexDigitChars.getD m '0' ∈ hexDigitChars) n h
  · rw [List.getD_eq_default]
    · decide
    · have hlen : hexDigitChars.length = 16 := by decide
      omega

theorem hexPairs_length : ∀ bs : List Nat,
    ((bs.map (fun b => [hexDigit (b / 16), hexDigit (b % 16)])).flatten).length = 2 * bs.length
  | [] => rfl
  | b :: t => by
      simp only [List.map_cons, List.flatten_cons, List.length_append, List.length_cons,
        List.length_nil, hexPairs_length t]
      omega

theorem hexOfBytes_length (bs : List Nat) : (hexOfBytes bs).length = 2 * bs.length := by
  show ((bs.map (fun b => [hexDigit (b / 16), hexDigit (b % 16)])).flatten).length = 2 * bs.length
  exact hexPairs_length bs

theorem hexOfBytes_mem (bs : List Nat) (c : Char) (hc : c ∈ (hexOfBytes bs).data) :
    c ∈ hexDigitChars := by
  have hc' : c ∈ (bs.map (fun b => [hexDigit (b / 16), hexDigit (b % 16)])).flatten := hc
  rw [List.mem_flatten] at hc'
  obtain ⟨l, hl, hcl⟩ := hc'
  rw [List.mem_map] at hl
  obtain ⟨b, _, rfl⟩ := hl
  simp only [List.mem_cons, List.not_mem_nil, or_false] at hcl
  rcases hcl with h | h
  · exact h ▸ hexDigit_mem _
  · exact h ▸ hexDigit_mem _

theorem sha256Bytes_length (msg : List Nat) : (sha256Bytes msg).length = 32 := by
  unfold sha256Bytes bytesOfWord
  simp

/-- The hash rendered by hashToken always has 64 characters. -/
theorem hashToken_length (s : String) : (hashToken s).length = 64 := by
  unfold hashToken
  rw [hexOfBytes_length, sha256Bytes_length]

/-- Every character of a hashToken digest is a lowercase hex digit. -/
theorem hashToken_mem_hex (s : String) (c : Char) (hc : c ∈ (hashToken s).data) :
    c ∈ hexDigitChars :=
  hexOfBytes_mem _ c hc

/-- C8: for every 32-byte draw from the random source, generateToken's
plaintext is exactly 43 characters, contains none of '+', '/', '='; the
returned tokenHash is hashToken of the plaintext, which is the 64-character
digest rendered entirely in lowercase hex characters. -/
theorem generateToken_spec (randomBytes : List Nat) (hlen : randomBytes.length = 32) :
    (generateToken randomBytes).plainToken.length = 43
      ∧ (∀ c ∈ (generateToken randomBytes).plainToken.data, c ≠ '+' ∧ c ≠ '/' ∧ c ≠ '=')
      ∧ (generateToken randomBytes).tokenHash
          = hashToken (generateToken randomBytes).plainToken
      ∧ (generateToken randomBytes).tokenHash.length = 64
      ∧ (∀ c ∈ (generateToken randomBytes).tokenHash.data, c ∈ hexDigitChars) := by
  refine ⟨?_, ?_, rfl, ?_, ?_⟩
  · show ((((encodeBase64 randomBytes).map repPlus).map repSlash).filter
        (fun c => c != '=')).length = 43
    rw [filter_ne_length, count_eq_map_rep]
    have h1 : (encodeBase64 randomBytes).length = 44 := by
      rw [encodeBase64_length, hlen]
    have h2 : (encodeBase64 randomBytes).count '=' = 1 := by
      rw [encodeBase64_count, hlen]
    simp [h1, h2]
  · intro c hc
    have hc' : c ∈ (((encodeBase64 randomBytes).map repPlus).map repSlash).filter
        (fun c => c != '=') := hc
    rw [List.mem_filter] at hc'
    obtain ⟨hmem, hne⟩ := hc'
    rw [List.mem_map] at hmem
    obtain ⟨c1, hc1, rfl⟩ := hmem
    rw [List.mem_map] at hc1
    obtain ⟨c0, _, rfl⟩ := hc1
    exact ⟨(repSlash_repPlus_ne c0).1, (repSlash_repPlus_ne c0).2, by simpa using hne⟩
  · exact hashToken_length _
  · exact fun c hc => hashToken_mem_hex _ c hc

theorem generateToken_spec_witness :
    (List.replicate 32 (0 : Nat)).length = 32 ∧
      ((generateToken (List.replicate 32 0)).plainToken.length = 43
        ∧ (∀ c ∈ (generateToken (List.replicate 32 0)).plainToken.data,
            c ≠ '+' ∧ c ≠ '/' ∧ c ≠ '=')
        ∧ (generateToken (List.replicate 32 0)).tokenHash
            = hashToken (generateToken (List.replicate 32 0)).plainToken
        ∧ (generateToken (List.replicate 32 0)).tokenHash.length = 64
        ∧ (∀ c ∈ (generateToken (List.replicate 32 0)).tokenHash.data, c ∈ hexDigitChars)) :=
  ⟨by decide, generateToken_spec (List.replicate 32 0) (by decide)⟩
